import Mathlib

/-!
Shallow embedding of `Image_Processing_Tools.py`: the `ConfigLoader`
validation logic and the `ImageProcessor` strip-interleaving pipeline.
An image buffer is a list of rows, each row a list of pixels; a pixel is
kept abstract (it carries its channels opaquely).
-/

namespace ImageTools

/-- An image buffer: a list of rows, each a list of pixels. -/
abbrev Buf (α : Type) := List (List α)

/-- Height of a buffer: `image.shape[0]`. -/
def height (img : Buf α) : Nat := img.length

/-- Width of a buffer: `image.shape[1]` (length of the first row, 0 when empty). -/
def width (img : Buf α) : Nat :=
  match img with
  | [] => 0
  | r :: _ => r.length

/-- Rectangularity: every row has the buffer's width (numpy arrays are rectangular). -/
def IsRect (img : Buf α) : Prop := ∀ r ∈ img, r.length = width img

instance (img : Buf Nat) : Decidable (IsRect img) := by
  unfold IsRect; infer_instance

/-- Embedding of `ImageProcessor.adjust_image_size`:
crops height and width down to `(h // step) * step` and `(w // step) * step`. -/
def adjust_image_size (step : Nat) (img : Buf α) : Buf α :=
  let h := height img / step * step
  let w := width img / step * step
  (img.take h).map (fun r => r.take w)

/-- The numpy mask `np.arange(extent) // step % 2 == 0` at position `i`. -/
def evenBand (step i : Nat) : Bool := i / step % 2 == 0

/-- Positions of `l` whose band index is even, in original order (`image[mask]`). -/
def selectEven (step : Nat) (l : List α) : List α :=
  (l.enum.filter (fun p => evenBand step p.1)).map Prod.snd

/-- Positions of `l` whose band index is odd, in original order (`image[~mask]`). -/
def selectOdd (step : Nat) (l : List α) : List α :=
  (l.enum.filter (fun p => !evenBand step p.1)).map Prod.snd

/-- One-axis interleave: even-band positions first, then odd-band positions
(`np.concatenate([image[mask], image[~mask]], axis)` restricted to one axis). -/
def interleave1 (step : Nat) (l : List α) : List α :=
  selectEven step l ++ selectOdd step l

/-- The interleaving axis: `axis=0` selects rows, `axis=1` selects columns. -/
inductive Axis where
  | rows
  | cols
deriving DecidableEq

/-- Embedding of `ImageProcessor.cut_image`: align, then stable-partition the
chosen axis into even bands followed by odd bands. -/
def cut_image (step : Nat) (img : Buf α) (ax : Axis) : Buf α :=
  let a := adjust_image_size step img
  match ax with
  | Axis.rows => interleave1 step a
  | Axis.cols => a.map (interleave1 step)

/-- Embedding of `ImageProcessor.process_image` after the image has been read:
stack the aligned base, the column-interleaved variant, and the
row-interleave of the column-interleaved variant, along the row axis. -/
def process_image (step : Nat) (img : Buf α) : Buf α :=
  let base := adjust_image_size step img
  let vertical := cut_image step base Axis.cols
  let horizontal := cut_image step vertical Axis.rows
  base ++ vertical ++ horizontal

/-- Total number of pixels in a buffer. -/
def pixelCount (img : Buf α) : Nat := (img.map List.length).sum

/-- A Python value as it can appear in a parsed YAML configuration:
an integer, a float (modelled exactly as a rational), a string, `None`,
or a nested mapping. -/
inductive PyVal where
  | pyInt : Int → PyVal
  | pyFloat : ℚ → PyVal
  | pyStr : String → PyVal
  | pyNone : PyVal
  | pyDict : List (String × PyVal) → PyVal

instance {ε α : Type} [DecidableEq ε] [DecidableEq α] : DecidableEq (Except ε α) :=
  fun a b =>
    match a, b with
    | Except.ok x, Except.ok y =>
      if h : x = y then isTrue (by rw [h]) else isFalse (by intro hc; cases hc; exact h rfl)
    | Except.error x, Except.error y =>
      if h : x = y then isTrue (by rw [h]) else isFalse (by intro hc; cases hc; exact h rfl)
    | Except.ok _, Except.error _ => isFalse (by intro hc; cases hc)
    | Except.error _, Except.ok _ => isFalse (by intro hc; cases hc)

/-- Outcome of a Python subscript expression `v[key]`. -/
inductive SubErr where
  | keyError
  | typeError
deriving DecidableEq

/-- Python subscripting `v[key]` with a string key: a mapping yields the value
or `KeyError`; any non-mapping raises `TypeError`. -/
def subscript (v : PyVal) (key : String) : Except SubErr PyVal :=
  match v with
  | PyVal.pyDict kvs =>
    match kvs.lookup key with
    | some x => Except.ok x
    | none => Except.error SubErr.keyError
  | _ => Except.error SubErr.typeError

/-- The failures `validate_config` can raise, tagged by raise site. -/
inductive VErr where
  | invalidConfigMissing
  | invalidConfigStep (s : String)
  | imageNotFound
  | stepOutOfRange (maxStep : Nat) (step : Int)
  | typeErrorNotSubscriptable
  | typeErrorIntArg
deriving DecidableEq

/-- The Python exception class each failure is raised as. -/
inductive ExnClass where
  | valueError
  | fileNotFoundError
  | typeError
deriving DecidableEq

/-- Maps each `validate_config` failure to its Python exception class:
missing keys, bad step and out-of-range step are `ValueError`; a missing
image is `FileNotFoundError`; subscripting a non-mapping or `int(None)`
raise `TypeError`. -/
def exnClass : VErr → ExnClass
  | VErr.invalidConfigMissing => ExnClass.valueError
  | VErr.invalidConfigStep _ => ExnClass.valueError
  | VErr.imageNotFound => ExnClass.fileNotFoundError
  | VErr.stepOutOfRange _ _ => ExnClass.valueError
  | VErr.typeErrorNotSubscriptable => ExnClass.typeError
  | VErr.typeErrorIntArg => ExnClass.typeError

/-- Truncation of a rational toward zero, the behaviour of Python `int(float)`. -/
def truncRat (q : ℚ) : Int := if 0 ≤ q then q.floor else -((-q).floor)

/-- Surrounding-whitespace removal on a character list, as Python `int`
applies to its string argument. -/
def trimWs (l : List Char) : List Char :=
  ((l.dropWhile Char.isWhitespace).reverse.dropWhile Char.isWhitespace).reverse

/-- Python `int(string)`: optional surrounding whitespace, an optional sign,
then one or more decimal digits; anything else raises `ValueError`. -/
def parseIntStr (s : String) : Option Int :=
  let t := trimWs s.data
  let signDigits : Int × List Char :=
    match t with
    | '-' :: rest => (-1, rest)
    | '+' :: rest => (1, rest)
    | l => (1, l)
  if signDigits.2 ≠ [] ∧ signDigits.2.all Char.isDigit then
    some (signDigits.1 *
      (signDigits.2.foldl (fun acc c => acc * 10 + (c.toNat - Char.toNat '0')) 0 : Nat))
  else none

/-- Python `int(v)` as used on the step value: integers pass through, floats
truncate toward zero, strings are parsed (`ValueError` on failure, caught and
re-raised as the invalid-step failure), and `None` or a mapping raise
`TypeError` (not caught by the `except ValueError`). -/
def pyToInt : PyVal → Except VErr Int
  | PyVal.pyInt n => Except.ok n
  | PyVal.pyFloat q => Except.ok (truncRat q)
  | PyVal.pyStr s =>
    match parseIntStr s with
    | some n => Except.ok n
    | none => Except.error (VErr.invalidConfigStep s)
  | PyVal.pyNone => Except.error VErr.typeErrorIntArg
  | PyVal.pyDict _ => Except.error VErr.typeErrorIntArg

/-- A filesystem of images: maps an `Image.open` argument to the opened
image's `size = (width, height)`, or `none` when the file is missing. -/
abbrev FS := PyVal → Option (Nat × Nat)

/-- The bound `int(max(image.size) * 0.02)` computed with exact arithmetic:
`0.02 * max(width, height)` truncated to an integer. -/
def maxStepOf (w h : Nat) : Nat := max w h * 2 / 100

/-- Embedding of `ConfigLoader.validate_config`: extract
`config['numpy_basics']['image_path']` and `['step']` (a `KeyError` becomes
the invalid-config failure, a `TypeError` propagates), coerce the step with
`int`, open the image to read its size, then enforce
`1 <= step <= max_step`. -/
def validate_config (fs : FS) (config : PyVal) : Except VErr (PyVal × Int) :=
  match subscript config "numpy_basics" with
  | Except.error SubErr.keyError => Except.error VErr.invalidConfigMissing
  | Except.error SubErr.typeError => Except.error VErr.typeErrorNotSubscriptable
  | Except.ok nb =>
    match subscript nb "image_path" with
    | Except.error SubErr.keyError => Except.error VErr.invalidConfigMissing
    | Except.error SubErr.typeError => Except.error VErr.typeErrorNotSubscriptable
    | Except.ok imagePath =>
      match subscript nb "step" with
      | Except.error SubErr.keyError => Except.error VErr.invalidConfigMissing
      | Except.error SubErr.typeError => Except.error VErr.typeErrorNotSubscriptable
      | Except.ok stepVal =>
        match pyToInt stepVal with
        | Except.error e => Except.error e
        | Except.ok step =>
          match fs imagePath with
          | none => Except.error VErr.imageNotFound
          | some (w, h) =>
            let maxStep := maxStepOf w h
            if step < 1 ∨ (maxStep : Int) < step then
              Except.error (VErr.stepOutOfRange maxStep step)
            else
              Except.ok (imagePath, step)

/-- The top-level `main` catches only `(FileNotFoundError, ValueError)`. -/
def caughtByMain (e : VErr) : Bool :=
  match exnClass e with
  | ExnClass.valueError => true
  | ExnClass.fileNotFoundError => true
  | ExnClass.typeError => false

/-- Extent of the buffer along an axis: `image.shape[axis]`. -/
def extentAlong : Axis → Buf α → Nat
  | Axis.rows, img => height img
  | Axis.cols, img => width img

/-- Stated from the spec wording: positions whose band index `i // step` is
even, in original order, followed by the positions whose band index is odd,
in original order. Compared against the `cut_image` embedding. -/
def specStablePartition (step : Nat) (l : List α) : List α :=
  (l.enum.filter (fun p => decide (p.1 / step % 2 = 0))).map Prod.snd ++
  (l.enum.filter (fun p => decide ¬(p.1 / step % 2 = 0))).map Prod.snd

/-- Filesystem with a single 10 x 10 image, for the C4 counterexample. -/
def fsSmall : FS := fun v =>
  match v with
  | PyVal.pyStr "img.png" => some (10, 10)
  | _ => none

/-- Inner `numpy_basics` mapping with step 0, for the C4 counterexample and
the C7 witness. -/
def nbStep0 : PyVal :=
  PyVal.pyDict [("image_path", PyVal.pyStr "img.png"), ("step", PyVal.pyInt 0)]

/-- Configuration whose step is the integer 0, for the C4 counterexample. -/
def cfgStep0 : PyVal := PyVal.pyDict [("numpy_basics", nbStep0)]

/-- Filesystem with a single 1000 x 10 image, for C8. -/
def fsWide : FS := fun v =>
  match v with
  | PyVal.pyStr "wide.png" => some (1000, 10)
  | _ => none

/-- Configuration with step 20, for C8. -/
def cfgWide : PyVal :=
  PyVal.pyDict [("numpy_basics", PyVal.pyDict
    [("image_path", PyVal.pyStr "wide.png"), ("step", PyVal.pyInt 20)])]

/-- Pixel buffer of a 1000 x 10 image (10 rows of 1000 pixels), for C8. -/
def imgWide : Buf Nat := List.replicate 10 (List.replicate 1000 0)

/-- Filesystem with a single 200 x 150 image, for C9 and the C4 witness. -/
def fsPhoto : FS := fun v =>
  match v with
  | PyVal.pyStr "photo.png" => some (200, 150)
  | _ => none

/-- Inner `numpy_basics` mapping with the float step 2.5, for C9 and the C4
witness. -/
def nbFloat : PyVal :=
  PyVal.pyDict [("image_path", PyVal.pyStr "photo.png"), ("step", PyVal.pyFloat (mkRat 5 2))]

/-- Configuration whose step is the float 2.5, for C9. -/
def cfgFloatStep : PyVal := PyVal.pyDict [("numpy_basics", nbFloat)]

/-- Configuration whose step is the string "2.5", for C9. -/
def cfgStrStep : PyVal :=
  PyVal.pyDict [("numpy_basics", PyVal.pyDict
    [("image_path", PyVal.pyStr "photo.png"), ("step", PyVal.pyStr "2.5")])]

/-- Configuration whose `numpy_basics` key maps to a scalar, for C10. -/
def cfgScalarNb : PyVal := PyVal.pyDict [("numpy_basics", PyVal.pyInt 5)]

/-- Configuration whose step is `None`, for C10. -/
def cfgNoneStep : PyVal :=
  PyVal.pyDict [("numpy_basics", PyVal.pyDict
    [("image_path", PyVal.pyStr "x.png"), ("step", PyVal.pyNone)])]

/-- Empty filesystem, for C10 (neither failure reaches the image open). -/
def fsEmpty : FS := fun _ => none

/-- Concrete 3 x 3 buffer used by several witnesses. -/
def img33 : Buf Nat := [[1, 2, 3], [4, 5, 6], [7, 8, 9]]

/-- Concrete 2 x 2 buffer used by the C6 witness. -/
def img22 : Buf Nat := [[1, 2], [3, 4]]

theorem interleave1_perm (step : Nat) (l : List α) :
    List.Perm (interleave1 step l) l := by
  have h := (List.filter_append_perm (fun p : Nat × α => evenBand step p.1) l.enum).map Prod.snd
  rw [List.map_append, List.enum_map_snd] at h
  exact h

theorem interleave1_length (step : Nat) (l : List α) :
    (interleave1 step l).length = l.length :=
  (interleave1_perm step l).length_eq

theorem interleave1_eq_self (step : Nat) (l : List α) (h : l.length ≤ step) :
    interleave1 step l = l := by
  have he : ∀ x ∈ l.enum, (fun p : Nat × α => evenBand step p.1) x = true := by
    intro x hx
    have hlt : x.1 < l.length := List.fst_lt_of_mem_enum hx
    have hz : x.1 / step = 0 := Nat.div_eq_of_lt (lt_of_lt_of_le hlt h)
    simp [evenBand, hz]
  have ho : ∀ x ∈ l.enum, ¬ (fun p : Nat × α => !evenBand step p.1) x = true := by
    intro x hx
    simp [he x hx]
  unfold interleave1 selectEven selectOdd
  rw [List.filter_eq_self.mpr he, List.filter_eq_nil_iff.mpr ho]
  simp [List.enum_map_snd]

theorem interleave1_eq_spec (step : Nat) (l : List α) :
    interleave1 step l = specStablePartition step l := by
  have he : List.filter (fun p : Nat × α => evenBand step p.1) l.enum
      = List.filter (fun p : Nat × α => decide (p.1 / step % 2 = 0)) l.enum := by
    apply List.filter_congr
    intro x hx
    by_cases h : x.1 / step % 2 = 0 <;> simp [evenBand, h]
  have ho : List.filter (fun p : Nat × α => !evenBand step p.1) l.enum
      = List.filter (fun p : Nat × α => decide ¬(p.1 / step % 2 = 0)) l.enum := by
    apply List.filter_congr
    intro x hx
    by_cases h : x.1 / step % 2 = 0 <;> simp [evenBand, h]
  unfold interleave1 specStablePartition selectEven selectOdd
  rw [he, ho]

theorem flatten_perm_of_forall₂ {l₁ l₂ : Buf α}
    (h : List.Forall₂ (fun r s => List.Perm r s) l₁ l₂) :
    List.Perm l₁.flatten l₂.flatten := by
  induction h with
  | nil => simp
  | cons h₁ h₂ ih => simpa using h₁.append ih

theorem forall₂_interleave1 (step : Nat) (l : Buf α) :
    List.Forall₂ (fun r s => List.Perm r s) (l.map (interleave1 step)) l := by
  induction l with
  | nil => exact List.Forall₂.nil
  | cons r rs ih => exact List.Forall₂.cons (interleave1_perm step r) ih

theorem adjust_length (step : Nat) (img : Buf α) :
    (adjust_image_size step img).length = height img / step * step := by
  unfold adjust_image_size
  rw [List.length_map, List.length_take]
  exact Nat.min_eq_left (Nat.div_mul_le_self _ _)

theorem adjust_row_length (step : Nat) (img : Buf α) (hrect : IsRect img) :
    ∀ r ∈ adjust_image_size step img, r.length = width img / step * step := by
  intro r hr
  unfold adjust_image_size at hr
  simp only [List.mem_map] at hr
  obtain ⟨s, hs, rfl⟩ := hr
  have hsm : s ∈ img := List.mem_of_mem_take hs
  rw [List.length_take, hrect s hsm]
  exact Nat.min_eq_left (Nat.div_mul_le_self _ _)

theorem adjust_eq_self (step : Nat) (img : Buf α) (W : Nat)
    (hH : step ∣ img.length) (hW : step ∣ W)
    (hrows : ∀ r ∈ img, r.length = W) :
    adjust_image_size step img = img := by
  cases img with
  | nil => simp [adjust_image_size]
  | cons r rs =>
    have hw : width (r :: rs) = W := hrows r (List.mem_cons_self r rs)
    unfold adjust_image_size
    show ((r :: rs).take (height (r :: rs) / step * step)).map
      (fun s => s.take (width (r :: rs) / step * step)) = r :: rs
    have h1 : height (r :: rs) / step * step = (r :: rs).length := Nat.div_mul_cancel hH
    have h2 : width (r :: rs) / step * step = W := by rw [hw]; exact Nat.div_mul_cancel hW
    rw [h1, h2, List.take_length]
    conv_rhs => rw [← List.map_id (r :: rs)]
    apply List.map_congr_left
    intro s hsm
    rw [← hrows s hsm]
    exact List.take_length s

theorem sub_step_lt_div_mul (n step : Nat) (hstep : 1 ≤ step) :
    (n : Int) - (step : Int) < ((n / step * step : Nat) : Int) := by
  have key : n < n / step * step + step := by
    calc n = step * (n / step) + n % step := (Nat.div_add_mod n step).symm
    _ < step * (n / step) + step := Nat.add_lt_add_left (Nat.mod_lt n hstep) _
    _ = n / step * step + step := by rw [Nat.mul_comm]
  have h2 : (n : Int) < ((n / step * step : Nat) : Int) + (step : Int) := by
    exact_mod_cast key
  linarith

/-- C3: `adjust_image_size` crops to height `(h // step) * step` and width
`(w // step) * step`: both are exact multiples of `step`, each is at most the
original extent and greater than the original extent minus `step`, and every
retained pixel (with its channels) equals the input pixel at the same
coordinates. -/
theorem adjust_image_size_spec {α : Type} (step : Nat) (img : Buf α)
    (hstep : 1 ≤ step) (hrect : IsRect img) :
    height (adjust_image_size step img) = height img / step * step ∧
    (∀ r ∈ adjust_image_size step img, r.length = width img / step * step) ∧
    step ∣ height img / step * step ∧
    step ∣ width img / step * step ∧
    height img / step * step ≤ height img ∧
    width img / step * step ≤ width img ∧
    (height img : Int) - (step : Int) < ((height img / step * step : Nat) : Int) ∧
    (width img : Int) - (step : Int) < ((width img / step * step : Nat) : Int) ∧
    (∀ i j : Nat, i < height img / step * step → j < width img / step * step →
      ((adjust_image_size step img)[i]?.bind (fun r => r[j]?))
        = (img[i]?.bind (fun r => r[j]?))) := by
  refine ⟨adjust_length step img, adjust_row_length step img hrect,
    Nat.dvd_mul_left step _, Nat.dvd_mul_left step _,
    Nat.div_mul_le_self _ _, Nat.div_mul_le_self _ _,
    sub_step_lt_div_mul _ _ hstep, sub_step_lt_div_mul _ _ hstep, ?_⟩
  intro i j hi hj
  have hih : i < img.length := lt_of_lt_of_le hi (Nat.div_mul_le_self _ _)
  unfold adjust_image_size
  rw [List.getElem?_map, List.getElem?_take_of_lt hi, List.getElem?_eq_getElem hih]
  simp only [Option.map_some', Option.some_bind]
  exact List.getElem?_take_of_lt hj

/-- C1: `cut_image` first aligns the buffer and then returns a stable
partition of the aligned buffer's positions along the chosen axis: a position
`i` belongs to the even group iff `(i / step) % 2 = 0`, the even-group
positions in original order precede the odd-group positions in original
order, every aligned position appears exactly once (a permutation), and the
output's extent equals the aligned buffer's. -/
theorem cut_image_stable_partition {α : Type} (step : Nat) (img : Buf α)
    (hstep : 1 ≤ step) :
    cut_image step img Axis.rows
      = specStablePartition step (adjust_image_size step img) ∧
    cut_image step img Axis.cols
      = (adjust_image_size step img).map (specStablePartition step) ∧
    List.Perm (cut_image step img Axis.rows) (adjust_image_size step img) ∧
    List.Forall₂ (fun r s => List.Perm r s) (cut_image step img Axis.cols)
      (adjust_image_size step img) ∧
    (cut_image step img Axis.rows).length = (adjust_image_size step img).length ∧
    (cut_image step img Axis.cols).length = (adjust_image_size step img).length := by
  refine ⟨interleave1_eq_spec step _, ?_, interleave1_perm step _,
    forall₂_interleave1 step _, interleave1_length step _, List.length_map _ _⟩
  show (adjust_image_size step img).map (interleave1 step) = _
  exact List.map_congr_left (fun r _ => interleave1_eq_spec step r)

/-- C5 as stated is false: for a non-aligned input the interleave first
aligns, discarding pixels, so the output pixel count can differ from the
input's: a 3 x 1 buffer with step 2 yields an empty output. -/
theorem cut_image_count_counterexample :
    pixelCount (cut_image 2 ([[1], [2], [3]] : Buf Nat) Axis.rows) = 0 ∧
    pixelCount ([[1], [2], [3]] : Buf Nat) = 3 ∧
    ¬ pixelCount (cut_image 2 ([[1], [2], [3]] : Buf Nat) Axis.rows)
        = pixelCount ([[1], [2], [3]] : Buf Nat) := by decide

/-- C5 (amended): the output of `cut_image` has the same total pixel count
and the same pixels (hence channel depth) as the ALIGNED input buffer; the
pixels of the output are a permutation of the aligned buffer's pixels. -/
theorem cut_image_count (step : Nat) (img : Buf α) (ax : Axis)
    (hstep : 1 ≤ step) :
    pixelCount (cut_image step img ax) = pixelCount (adjust_image_size step img) ∧
    List.Perm (cut_image step img ax).flatten
      (adjust_image_size step img).flatten := by
  have hperm : List.Perm (cut_image step img ax).flatten
      (adjust_image_size step img).flatten := by
    cases ax with
    | rows => exact (interleave1_perm step _).flatten
    | cols => exact flatten_perm_of_forall₂ (forall₂_interleave1 step _)
  refine ⟨?_, hperm⟩
  have hlen := hperm.length_eq
  simpa [pixelCount, List.length_flatten] using hlen

/-- C6 as stated is false: a 2 x 3 buffer with step 2 has extent 2 along the
row axis (a single band) yet `cut_image` crops the width to 2, so the output
differs from the input. -/
theorem cut_image_single_band_counterexample :
    extentAlong Axis.rows ([[1, 2, 3], [4, 5, 6]] : Buf Nat) = 2 ∧
    cut_image 2 ([[1, 2, 3], [4, 5, 6]] : Buf Nat) Axis.rows = [[1, 2], [4, 5]] ∧
    ¬ cut_image 2 ([[1, 2, 3], [4, 5, 6]] : Buf Nat) Axis.rows
        = [[1, 2, 3], [4, 5, 6]] := by decide

/-- C6 (amended): when the buffer's extent along the chosen axis equals
`step`, every position falls in the single even band, the odd group is
empty, and `cut_image` returns the ALIGNED buffer unchanged; in particular
it is the identity whenever alignment already leaves the buffer intact. -/
theorem cut_image_single_band {α : Type} (step : Nat) (img : Buf α) (ax : Axis)
    (hstep : 1 ≤ step) (hext : extentAlong ax img = step) :
    cut_image step img ax = adjust_image_size step img ∧
    (adjust_image_size step img = img → cut_image step img ax = img) := by
  have hmain : cut_image step img ax = adjust_image_size step img := by
    cases ax with
    | rows =>
      show interleave1 step (adjust_image_size step img) = adjust_image_size step img
      apply interleave1_eq_self
      rw [adjust_length, show height img = step from hext,
        Nat.div_self (by omega), Nat.one_mul]
    | cols =>
      show (adjust_image_size step img).map (interleave1 step)
        = adjust_image_size step img
      conv_rhs => rw [← List.map_id (adjust_image_size step img)]
      apply List.map_congr_left
      intro r hr
      apply interleave1_eq_self
      unfold adjust_image_size at hr
      simp only [List.mem_map] at hr
      obtain ⟨s, hs, rfl⟩ := hr
      have hW : width img / step * step = step := by
        rw [show width img = step from hext, Nat.div_self (by omega), Nat.one_mul]
      calc (s.take (width img / step * step)).length
          ≤ width img / step * step := List.length_take_le _ _
        _ = step := hW
  exact ⟨hmain, fun h => by rw [hmain, h]⟩

/-- C2: `process_image` returns the row-axis concatenation of the aligned
base buffer, the column-interleave of the base, and the row-interleave of the
COLUMN-INTERLEAVED buffer (not of the original); the composite's height is
three times the aligned height and every row has the aligned width. -/
theorem process_image_spec {α : Type} (step : Nat) (img : Buf α)
    (hstep : 1 ≤ step) (hrect : IsRect img) :
    process_image step img
      = adjust_image_size step img
        ++ cut_image step (adjust_image_size step img) Axis.cols
        ++ cut_image step (cut_image step (adjust_image_size step img) Axis.cols)
            Axis.rows ∧
    height (process_image step img) = 3 * (height img / step * step) ∧
    (∀ r ∈ process_image step img, r.length = width img / step * step) := by
  have hbaseLen : (adjust_image_size step img).length = height img / step * step :=
    adjust_length step img
  have hbaseRows : ∀ r ∈ adjust_image_size step img,
      r.length = width img / step * step := adjust_row_length step img hrect
  have hdvdW : step ∣ width img / step * step := Nat.dvd_mul_left step _
  have hdvdH : step ∣ (adjust_image_size step img).length := by
    rw [hbaseLen]; exact Nat.dvd_mul_left step _
  have hAdjBase : adjust_image_size step (adjust_image_size step img)
      = adjust_image_size step img :=
    adjust_eq_self step _ _ hdvdH hdvdW hbaseRows
  have hvert : cut_image step (adjust_image_size step img) Axis.cols
      = (adjust_image_size step img).map (interleave1 step) := by
    show (adjust_image_size step (adjust_image_size step img)).map (interleave1 step)
      = _
    rw [hAdjBase]
  have hvertLen : (cut_image step (adjust_image_size step img) Axis.cols).length
      = height img / step * step := by
    rw [hvert, List.length_map, hbaseLen]
  have hvertRows : ∀ r ∈ cut_image step (adjust_image_size step img) Axis.cols,
      r.length = width img / step * step := by
    intro r hr
    rw [hvert] at hr
    simp only [List.mem_map] at hr
    obtain ⟨s, hs, rfl⟩ := hr
    rw [interleave1_length]
    exact hbaseRows s hs
  have hdvdH2 : step ∣ (cut_image step (adjust_image_size step img) Axis.cols).length := by
    rw [hvertLen]; exact Nat.dvd_mul_left step _
  have hAdjVert :
      adjust_image_size step (cut_image step (adjust_image_size step img) Axis.cols)
        = cut_image step (adjust_image_size step img) Axis.cols :=
    adjust_eq_self step _ _ hdvdH2 hdvdW hvertRows
  have hhoriz :
      cut_image step (cut_image step (adjust_image_size step img) Axis.cols) Axis.rows
        = interleave1 step (cut_image step (adjust_image_size step img) Axis.cols) := by
    show interleave1 step
      (adjust_image_size step (cut_image step (adjust_image_size step img) Axis.cols))
      = _
    rw [hAdjVert]
  have hhorizLen :
      (cut_image step (cut_image step (adjust_image_size step img) Axis.cols)
        Axis.rows).length = height img / step * step := by
    rw [hhoriz, interleave1_length, hvertLen]
  have hhorizRows :
      ∀ r ∈ cut_image step (cut_image step (adjust_image_size step img) Axis.cols)
        Axis.rows, r.length = width img / step * step := by
    intro r hr
    rw [hhoriz] at hr
    exact hvertRows r ((interleave1_perm step _).mem_iff.mp hr)
  refine ⟨rfl, ?_, ?_⟩
  · show (adjust_image_size step img
      ++ cut_image step (adjust_image_size step img) Axis.cols
      ++ cut_image step (cut_image step (adjust_image_size step img) Axis.cols)
          Axis.rows).length = _
    rw [List.length_append, List.length_append, hbaseLen, hvertLen, hhorizLen]
    ring
  · intro r hr
    have hr' : r ∈ adjust_image_size step img
        ++ cut_image step (adjust_image_size step img) Axis.cols
        ++ cut_image step (cut_image step (adjust_image_size step img) Axis.cols)
            Axis.rows := hr
    simp only [List.mem_append] at hr'
    rcases hr' with (h | h) | h
    · exact hbaseRows r h
    · exact hvertRows r h
    · exact hhorizRows r h

/-- C4 as stated is false: for a 10 x 10 image `max_step = floor(0.02 * 10) = 0`,
so `step = max_step = 0` raises `StepOutOfRange` instead of succeeding. -/
theorem validate_config_range_counterexample :
    maxStepOf 10 10 = 0 ∧
    validate_config fsSmall cfgStep0
      = Except.error (VErr.stepOutOfRange (maxStepOf 10 10) 0) ∧
    ¬ validate_config fsSmall cfgStep0 = Except.ok (PyVal.pyStr "img.png", 0) := by
  refine ⟨rfl, rfl, ?_⟩
  intro hc
  have h2 : validate_config fsSmall cfgStep0
      = Except.error (VErr.stepOutOfRange (maxStepOf 10 10) 0) := rfl
  rw [h2] at hc
  exact Except.noConfusion hc

/-- C4 (amended): with the required keys present, a coercible step, and an
existing `w x h` image, `validate_config` raises `StepOutOfRange` iff
`step < 1` or `step > max_step` where `max_step = floor(0.02 * max(w, h))`;
when it does not raise, validation returns `(image_path, step)`; in
particular `step = max_step` succeeds provided `max_step >= 1` (for
`max_step = 0` it raises), and `step = max_step + 1` always raises. -/
theorem validate_config_range (fs : FS) (config nb pv sv : PyVal) (n : Int)
    (w h : Nat)
    (h1 : subscript config "numpy_basics" = Except.ok nb)
    (h2 : subscript nb "image_path" = Except.ok pv)
    (h3 : subscript nb "step" = Except.ok sv)
    (h4 : pyToInt sv = Except.ok n)
    (h5 : fs pv = some (w, h)) :
    (validate_config fs config
        = Except.error (VErr.stepOutOfRange (maxStepOf w h) n)
      ↔ (n < 1 ∨ ((maxStepOf w h : Nat) : Int) < n)) ∧
    (¬(n < 1 ∨ ((maxStepOf w h : Nat) : Int) < n)
      → validate_config fs config = Except.ok (pv, n)) ∧
    (n = ((maxStepOf w h : Nat) : Int) → 1 ≤ maxStepOf w h
      → validate_config fs config = Except.ok (pv, n)) ∧
    (n = ((maxStepOf w h : Nat) : Int) + 1
      → validate_config fs config
          = Except.error (VErr.stepOutOfRange (maxStepOf w h) n)) := by
  have hval : validate_config fs config
      = if n < 1 ∨ ((maxStepOf w h : Nat) : Int) < n
        then Except.error (VErr.stepOutOfRange (maxStepOf w h) n)
        else Except.ok (pv, n) := by
    unfold validate_config
    simp only [h1, h2, h3, h4, h5]
  refine ⟨?_, ?_, ?_, ?_⟩
  · rw [hval]
    by_cases hc : n < 1 ∨ ((maxStepOf w h : Nat) : Int) < n
    · simp [hc]
    · simp [hc]
  · intro hnc
    rw [hval, if_neg hnc]
  · intro hEq hge
    rw [hval, if_neg ?_]
    rw [hEq]
    omega
  · intro hEq
    rw [hval, if_pos ?_]
    rw [hEq]
    right
    omega

/-- C7: with the required keys present and a coercible step, a missing image
file makes `validate_config` raise `ImageNotFound` (a `FileNotFoundError`)
before the step-range check: the failure is `ImageNotFound` whatever the
step value, and no `StepOutOfRange` is ever raised. -/
theorem validate_config_image_missing (fs : FS) (config nb pv sv : PyVal)
    (n : Int)
    (h1 : subscript config "numpy_basics" = Except.ok nb)
    (h2 : subscript nb "image_path" = Except.ok pv)
    (h3 : subscript nb "step" = Except.ok sv)
    (h4 : pyToInt sv = Except.ok n)
    (h5 : fs pv = none) :
    validate_config fs config = Except.error VErr.imageNotFound ∧
    exnClass VErr.imageNotFound = ExnClass.fileNotFoundError ∧
    (∀ M : Nat, ∀ e : Int, ¬ validate_config fs config
      = Except.error (VErr.stepOutOfRange M e)) := by
  have hval : validate_config fs config = Except.error VErr.imageNotFound := by
    unfold validate_config
    simp only [h1, h2, h3, h4, h5]
  refine ⟨hval, rfl, ?_⟩
  intro M e
  rw [hval]
  simp

set_option maxRecDepth 10000 in
/-- C8: a 1000 x 10 image with step 20 passes validation
(`max_step = floor(0.02 * 1000) = 20`), yet the step exceeds the height, so
alignment truncates the height to `(10 // 20) * 20 = 0`: every pixel is
discarded and the downstream interleaves and the stacked composite are all
empty buffers. -/
theorem validate_accepts_empty_alignment :
    maxStepOf 1000 10 = 20 ∧
    validate_config fsWide cfgWide = Except.ok (PyVal.pyStr "wide.png", 20) ∧
    height imgWide = 10 ∧
    width imgWide = 1000 ∧
    adjust_image_size 20 imgWide = [] ∧
    cut_image 20 imgWide Axis.cols = [] ∧
    cut_image 20 imgWide Axis.rows = [] ∧
    process_image 20 imgWide = [] :=
  ⟨rfl, rfl, rfl, rfl, rfl, rfl, rfl, rfl⟩

/-- C9: step coercion is asymmetric between numeric types and numeric
strings: the float 2.5 is silently truncated toward zero to 2 (and, for a
200 x 150 image with `max_step = 4`, validation succeeds with step 2),
while the numeric string "2.5" fails `int()` coercion and raises
`InvalidConfig`, a `ValueError`. -/
theorem step_coercion_asymmetry :
    pyToInt (PyVal.pyFloat (mkRat 5 2)) = Except.ok 2 ∧
    pyToInt (PyVal.pyFloat (-(mkRat 5 2))) = Except.ok (-2) ∧
    pyToInt (PyVal.pyStr "2.5") = Except.error (VErr.invalidConfigStep "2.5") ∧
    maxStepOf 200 150 = 4 ∧
    validate_config fsPhoto cfgFloatStep = Except.ok (PyVal.pyStr "photo.png", 2) ∧
    validate_config fsPhoto cfgStrStep
      = Except.error (VErr.invalidConfigStep "2.5") ∧
    exnClass (VErr.invalidConfigStep "2.5") = ExnClass.valueError :=
  ⟨by decide, by decide, by decide, rfl, rfl, rfl, rfl⟩

/-- C10: two configurations fall outside the documented error taxonomy: a
scalar `numpy_basics` makes the subscript raise `TypeError`, and a `None`
step makes `int(None)` raise `TypeError`; both are `TypeError`, not
`ValueError` (`InvalidConfig`), and both escape the top-level handler that
catches only `FileNotFoundError` and `ValueError`. -/
theorem validate_config_type_error :
    validate_config fsEmpty cfgScalarNb
      = Except.error VErr.typeErrorNotSubscriptable ∧
    exnClass VErr.typeErrorNotSubscriptable = ExnClass.typeError ∧
    caughtByMain VErr.typeErrorNotSubscriptable = false ∧
    validate_config fsEmpty cfgNoneStep = Except.error VErr.typeErrorIntArg ∧
    exnClass VErr.typeErrorIntArg = ExnClass.typeError ∧
    caughtByMain VErr.typeErrorIntArg = false :=
  ⟨rfl, rfl, rfl, rfl, rfl, rfl⟩

theorem cut_image_stable_partition_witness :
    1 ≤ 2 ∧
    (cut_image 2 img33 Axis.rows
        = specStablePartition 2 (adjust_image_size 2 img33) ∧
    cut_image 2 img33 Axis.cols
        = (adjust_image_size 2 img33).map (specStablePartition 2) ∧
    List.Perm (cut_image 2 img33 Axis.rows) (adjust_image_size 2 img33) ∧
    List.Forall₂ (fun r s => List.Perm r s) (cut_image 2 img33 Axis.cols)
      (adjust_image_size 2 img33) ∧
    (cut_image 2 img33 Axis.rows).length = (adjust_image_size 2 img33).length ∧
    (cut_image 2 img33 Axis.cols).length = (adjust_image_size 2 img33).length) :=
  ⟨by decide, cut_image_stable_partition 2 img33 (by decide)⟩

theorem process_image_spec_witness :
    (1 ≤ 2 ∧ IsRect img33) ∧
    process_image 2 img33
      = adjust_image_size 2 img33
        ++ cut_image 2 (adjust_image_size 2 img33) Axis.cols
        ++ cut_image 2 (cut_image 2 (adjust_image_size 2 img33) Axis.cols)
            Axis.rows ∧
    height (process_image 2 img33) = 3 * (height img33 / 2 * 2) ∧
    ([1, 2] : List Nat).length = width img33 / 2 * 2 :=
  ⟨⟨by decide, by decide⟩,
    (process_image_spec 2 img33 (by decide) (by decide)).1,
    (process_image_spec 2 img33 (by decide) (by decide)).2.1,
    (process_image_spec 2 img33 (by decide) (by decide)).2.2 [1, 2] (by decide)⟩

theorem adjust_image_size_spec_witness :
    (1 ≤ 2 ∧ IsRect img33) ∧
    height (adjust_image_size 2 img33) = height img33 / 2 * 2 ∧
    2 ∣ height img33 / 2 * 2 ∧
    (height img33 : Int) - ((2 : Nat) : Int)
      < ((height img33 / 2 * 2 : Nat) : Int) ∧
    ((adjust_image_size 2 img33)[1]?.bind (fun r => r[1]?))
      = (img33[1]?.bind (fun r => r[1]?)) :=
  ⟨⟨by decide, by decide⟩,
    (adjust_image_size_spec 2 img33 (by decide) (by decide)).1,
    (adjust_image_size_spec 2 img33 (by decide) (by decide)).2.2.1,
    (adjust_image_size_spec 2 img33 (by decide) (by decide)).2.2.2.2.2.2.1,
    (adjust_image_size_spec 2 img33 (by decide) (by decide)).2.2.2.2.2.2.2.2
      1 1 (by decide) (by decide)⟩

theorem validate_config_range_witness :
    (subscript cfgFloatStep "numpy_basics" = Except.ok nbFloat ∧
      subscript nbFloat "image_path" = Except.ok (PyVal.pyStr "photo.png") ∧
      subscript nbFloat "step" = Except.ok (PyVal.pyFloat (mkRat 5 2)) ∧
      pyToInt (PyVal.pyFloat (mkRat 5 2)) = Except.ok 2 ∧
      fsPhoto (PyVal.pyStr "photo.png") = some (200, 150)) ∧
    (validate_config fsPhoto cfgFloatStep
        = Except.error (VErr.stepOutOfRange (maxStepOf 200 150) 2)
      ↔ ((2 : Int) < 1 ∨ ((maxStepOf 200 150 : Nat) : Int) < 2)) ∧
    validate_config fsPhoto cfgFloatStep
      = Except.ok (PyVal.pyStr "photo.png", 2) :=
  ⟨⟨rfl, rfl, rfl, by decide, rfl⟩,
    (validate_config_range fsPhoto cfgFloatStep nbFloat (PyVal.pyStr "photo.png")
      (PyVal.pyFloat (mkRat 5 2)) 2 200 150 rfl rfl rfl (by decide) rfl).1,
    (validate_config_range fsPhoto cfgFloatStep nbFloat (PyVal.pyStr "photo.png")
      (PyVal.pyFloat (mkRat 5 2)) 2 200 150 rfl rfl rfl (by decide) rfl).2.1
      (by decide)⟩

theorem cut_image_count_witness :
    1 ≤ 2 ∧
    (pixelCount (cut_image 2 img33 Axis.cols)
        = pixelCount (adjust_image_size 2 img33) ∧
    List.Perm (cut_image 2 img33 Axis.cols).flatten
      (adjust_image_size 2 img33).flatten) :=
  ⟨by decide, cut_image_count 2 img33 Axis.cols (by decide)⟩

theorem cut_image_single_band_witness :
    (1 ≤ 2 ∧ extentAlong Axis.rows img22 = 2) ∧
    cut_image 2 img22 Axis.rows = adjust_image_size 2 img22 ∧
    cut_image 2 img22 Axis.rows = img22 :=
  ⟨⟨by decide, by decide⟩,
    (cut_image_single_band 2 img22 Axis.rows (by decide) (by decide)).1,
    (cut_image_single_band 2 img22 Axis.rows (by decide) (by decide)).2 (by decide)⟩

theorem validate_config_image_missing_witness :
    (subscript cfgStep0 "numpy_basics" = Except.ok nbStep0 ∧
      subscript nbStep0 "image_path" = Except.ok (PyVal.pyStr "img.png") ∧
      subscript nbStep0 "step" = Except.ok (PyVal.pyInt 0) ∧
      pyToInt (PyVal.pyInt 0) = Except.ok 0 ∧
      fsEmpty (PyVal.pyStr "img.png") = none) ∧
    validate_config fsEmpty cfgStep0 = Except.error VErr.imageNotFound ∧
    ¬ validate_config fsEmpty cfgStep0
        = Except.error (VErr.stepOutOfRange (maxStepOf 10 10) 0) :=
  ⟨⟨rfl, rfl, rfl, rfl, rfl⟩,
    (validate_config_image_missing fsEmpty cfgStep0 nbStep0 (PyVal.pyStr "img.png")
      (PyVal.pyInt 0) 0 rfl rfl rfl rfl rfl).1,
    (validate_config_image_missing fsEmpty cfgStep0 nbStep0 (PyVal.pyStr "img.png")
      (PyVal.pyInt 0) 0 rfl rfl rfl rfl rfl).2.2 (maxStepOf 10 10) 0⟩

end ImageTools
